import Mathlib

/-!
# Verification of the generic asynchronous repository core

Shallow embedding of `src/app/core/base_repository.py`
(`GenericAsyncRepository`): a generic CRUD repository over a borrowed
SQLAlchemy-style session.  The session is modelled as a pair of stores
(the committed database state and the working in-transaction state), a
counter for storage-generated identifiers, and a log of the storage
operations issued (query / commit / rollback / refresh).  Constraint
checking at commit time is a parameter `check : Store → Option DBError`,
standing for whatever constraints the database schema declares.

Records carry an optional identifier (`none` before the store assigns
one) and an association list of field/value pairs.  Payloads model
pydantic `BaseModel` instances: `dumpAll` is `model_dump()`, while
`dumpExcludeUnset` (the fields of `dumpAll` whose keys are in
`setKeys`) is `model_dump(exclude_unset=True)`.
-/

deriving instance DecidableEq for Except

/-- One storage-level operation issued on the session, for the log. -/
inductive DbOp where
  | query
  | commit
  | rollback
  | refresh
deriving DecidableEq, Repr

/-- A storage-engine error: whether it wraps a foreign-key violation
(`asyncpg.ForeignKeyViolationError` as `alchemy_error.orig`) and the
diagnostic message text of `alchemy_error.orig`. -/
structure DBError where
  isFK : Bool
  message : String
deriving DecidableEq, Repr

/-- The failures a repository operation can raise: `valueError` models
Python `ValueError`, `integrityError` a re-raised
`sqlalchemy.exc.IntegrityError`, `attributeError` Python
`AttributeError`. -/
inductive RepoError where
  | valueError (msg : String)
  | integrityError (e : DBError)
  | attributeError (msg : String)
deriving DecidableEq, Repr

abbrev FieldKey := String

abbrev FieldVal := String

/-- A persisted (or staged) record: its identifier, `none` until the
store assigns one, and its non-identifier fields. -/
structure Record where
  id : Option Nat
  fields : List (FieldKey × FieldVal)
deriving DecidableEq, Repr

abbrev Store := List Record

/-- The entity descriptor (`orm_model`): its `__name__` and whether it
has an `id` attribute (`hasattr(orm_model, "id")`). -/
structure OrmModel where
  name : String
  hasId : Bool
deriving DecidableEq, Repr

/-- A pydantic payload: the identifier field if the schema carries one,
the full field dump (`model_dump()`), and the explicitly-set keys. -/
structure Payload where
  pid : Option Nat
  dumpAll : List (FieldKey × FieldVal)
  setKeys : List FieldKey
deriving DecidableEq, Repr

/-- `model_dump(exclude_unset=True)`: the fields of the full dump whose
keys were explicitly set. -/
def Payload.dumpExcludeUnset (p : Payload) : List (FieldKey × FieldVal) :=
  p.dumpAll.filter (fun kv => p.setKeys.contains kv.1)

/-- The borrowed session/unit-of-work: the committed store, the working
(in-transaction) store, the next storage-generated identifier, and the
log of storage operations issued so far. -/
structure Session where
  committed : Store
  working : Store
  nextId : Nat
  log : List DbOp
deriving DecidableEq, Repr

/-- At flush time the store assigns fresh sequential identifiers to the
staged records that do not yet have one. -/
def assignIds (next : Nat) : Store → Store × Nat
  | [] => ([], next)
  | r :: rs =>
    match r.id with
    | some _ =>
      let (rs2, n2) := assignIds next rs
      (r :: rs2, n2)
    | none =>
      let (rs2, n2) := assignIds (next + 1) rs
      ({ r with id := some next } :: rs2, n2)

/-- `session.commit()`: flush (assign identifiers), check the schema
constraints; on success the working state becomes the committed state,
on failure the error is raised and nothing is committed. -/
def Session.commitOp (check : Store → Option DBError) (s : Session) :
    Except DBError Unit × Session :=
  let (st, n2) := assignIds s.nextId s.working
  match check st with
  | none =>
      (Except.ok (),
        { committed := st, working := st, nextId := n2,
          log := s.log ++ [DbOp.commit] })
  | some e =>
      (Except.error e, { s with log := s.log ++ [DbOp.commit] })

/-- `session.rollback()`: discard the working state. -/
def Session.rollbackOp (s : Session) : Session :=
  { s with working := s.committed, log := s.log ++ [DbOp.rollback] }

/-- The double-quote character appearing in the regex pattern
`table "(.+?)"`. -/
def quoteChar : Char := Char.ofNat 34

/-- The newline character, which `.` in a Python regex does not match. -/
def newlineChar : Char := Char.ofNat 10

/-- The literal part `table "` of the pattern `table "(.+?)"`. -/
def tableLit : List Char := "table ".toList ++ [quoteChar]

/-- Lazy scan for the closing quote of `(.+?)"`: return the characters
accumulated so far at the first quote, fail at a newline or the end of
the input (`.` does not match newline). -/
def scanToQuote (acc : List Char) : List Char → Option (List Char)
  | [] => none
  | c :: cs =>
    if c = quoteChar then some acc
    else if c = newlineChar then none
    else scanToQuote (acc ++ [c]) cs

/-- Match `(.+?)"` against the text right after the literal `table "`:
the captured group needs at least one character, so the first character
is consumed unconditionally (even a quote) before scanning for the
closing quote. -/
def matchGroup : List Char → Option (List Char)
  | [] => none
  | c :: cs =>
    if c = newlineChar then none
    else scanToQuote [c] cs

/-- `re.search(r'table "(.+?)"', msg)`: try each start position from the
left; at each, require the literal `table "` and then a lazily-matched
non-empty group closed by a quote. -/
def searchTable : List Char → Option (List Char)
  | [] => none
  | c :: cs =>
    match if tableLit.isPrefixOf (c :: cs) then matchGroup ((c :: cs).drop tableLit.length) else none with
    | some g => some g
    | none => searchTable cs

/-- `GenericAsyncRepository.__table_name_from_message`: extract the
quoted table identifier from the engine's diagnostic message, `none`
when the pattern does not match. -/
def tableNameFromMessage (errorMessage : String) : Option String :=
  (searchTable errorMessage.toList).map fun g => String.mk g

/-- The underscore character, the storage-internal word separator. -/
def underscoreChar : Char := Char.ofNat 95

/-- The space character, the human-readable word separator. -/
def spaceChar : Char := Char.ofNat 32

/-- `table_name.split("_")` with Python semantics: splitting on every
underscore, keeping empty pieces. -/
def splitUnderscore : List Char → List (List Char)
  | [] => [[]]
  | c :: cs =>
    if c = underscoreChar then [] :: splitUnderscore cs
    else
      match splitUnderscore cs with
      | [] => [[c]]
      | g :: gs => (c :: g) :: gs

/-- `" ".join(pieces)`. -/
def joinSpace : List (List Char) → List Char
  | [] => []
  | [g] => g
  | g :: gs => g ++ spaceChar :: joinSpace gs

/-- `" ".join(table_name.split("_"))`: storage-internal
underscore-separated form to a space-separated phrase. -/
def formatTableName (t : String) : String :=
  String.mk (joinSpace (splitUnderscore t.toList))

example : tableNameFromMessage "insert or update on table \"user_profile\" violates foreign key constraint" = some "user_profile" := by decide

example : tableNameFromMessage "no quoted thing here" = none := by decide

example : formatTableName "user_profile" = "user profile" := by decide

example : Payload.dumpExcludeUnset { pid := none, dumpAll := [("a", "1"), ("b", "2")], setKeys := ["b"] } = [("b", "2")] := by decide

/-- First-match association-list lookup (Python attribute read). -/
def lookupField (k : FieldKey) : List (FieldKey × FieldVal) → Option FieldVal
  | [] => none
  | (k2, v) :: rest => if k2 = k then some v else lookupField k rest

/-- `setattr(db_item, key, value)`: overwrite the field if the record
has it, append it otherwise. -/
def setField (fs : List (FieldKey × FieldVal)) (k : FieldKey) (v : FieldVal) :
    List (FieldKey × FieldVal) :=
  match fs with
  | [] => [(k, v)]
  | (k2, v2) :: rest => if k2 = k then (k, v) :: rest else (k2, v2) :: setField rest k v

/-- `for key, value in update_data.items(): setattr(db_item, key, value)`
— apply the updates left to right in dump order. -/
def applyFields (fs : List (FieldKey × FieldVal)) :
    List (FieldKey × FieldVal) → List (FieldKey × FieldVal)
  | [] => fs
  | (k, v) :: rest => applyFields (setField fs k v) rest

/-- `orm_model(**item.model_dump())`: build a fresh (unpersisted) record
from the full payload dump. -/
def mkRecord (p : Payload) : Record :=
  { id := p.pid, fields := p.dumpAll }

/-- In-place mutation of the session object found by identifier:
replace the first record carrying `id` (the SQLAlchemy identity map
holds one object per primary key). -/
def replaceFirstById (i : Nat) (x : Record) : Store → Store
  | [] => []
  | r :: rs => if r.id = some i then x :: rs else r :: replaceFirstById i x rs

/-- `session.delete(db_item)`: remove the record found by identifier. -/
def eraseFirstById (i : Nat) : Store → Store
  | [] => []
  | r :: rs => if r.id = some i then rs else r :: eraseFirstById i rs

/-- The `AttributeError` message of `get_by_id` when the descriptor has
no `id` attribute. -/
def missingIdMsg (model : OrmModel) : String :=
  model.name ++ " must have an 'id' attribute"

/-- The `ValueError` message of `update`/`delete` when no record
matches the identifier. -/
def notFoundMsg (i : Nat) : String :=
  "Item with id " ++ toString i ++ " not found"

/-- `GenericAsyncRepository.get_by_id`: raise `AttributeError` when the
descriptor lacks an `id` attribute, otherwise query the store and
return the matching record or `None`. -/
def get_by_id (model : OrmModel) (s : Session) (i : Nat) :
    Except RepoError (Option Record) × Session :=
  if model.hasId then
    (Except.ok (s.working.find? fun r => r.id == some i),
      { s with log := s.log ++ [DbOp.query] })
  else
    (Except.error (RepoError.attributeError (missingIdMsg model)), s)

/-- The `except IntegrityError` handler shared verbatim by `create` and
`create_many`: roll back, and when the original error is a foreign-key
violation with an extractable table name, raise the domain `ValueError`;
otherwise re-raise the original error. -/
def integrityHandler (e : DBError) (s : Session) : RepoError × Session :=
  let s2 := s.rollbackOp
  if e.isFK then
    match tableNameFromMessage e.message with
    | some t =>
        (RepoError.valueError (formatTableName t ++ " id does not exist"), s2)
    | none => (RepoError.integrityError e, s2)
  else (RepoError.integrityError e, s2)

/-- `GenericAsyncRepository.create`: stage the new record, commit,
refresh it from the committed store and return it; on `IntegrityError`
roll back and translate foreign-key violations. -/
def create (check : Store → Option DBError) (model : OrmModel) (s : Session)
    (p : Payload) : Except RepoError Record × Session :=
  let actualItem := mkRecord p
  let pos := s.working.length
  let s1 := { s with working := s.working ++ [actualItem] }
  match s1.commitOp check with
  | (Except.ok _, s2) =>
      let refreshed := (s2.committed.get? pos).getD actualItem
      (Except.ok refreshed, { s2 with log := s2.log ++ [DbOp.refresh] })
  | (Except.error e, s2) =>
      let (err, s3) := integrityHandler e s2
      (Except.error err, s3)

/-- `GenericAsyncRepository.create_many`: stage all records with one
`add_all`, commit once, and return the persisted records in input
order; on `IntegrityError` roll back and translate foreign-key
violations. -/
def create_many (check : Store → Option DBError) (model : OrmModel) (s : Session)
    (ps : List Payload) : Except RepoError (List Record) × Session :=
  let actualItems := ps.map mkRecord
  let pos := s.working.length
  let s1 := { s with working := s.working ++ actualItems }
  match s1.commitOp check with
  | (Except.ok _, s2) => (Except.ok (s2.committed.drop pos), s2)
  | (Except.error e, s2) =>
      let (err, s3) := integrityHandler e s2
      (Except.error err, s3)

/-- `GenericAsyncRepository.update`: look the record up, raise the
not-found `ValueError` when absent, apply exactly the explicitly-set
payload fields, commit, refresh and return.  A commit failure
propagates as raised — the method has no exception handler. -/
def update (check : Store → Option DBError) (model : OrmModel) (s : Session)
    (i : Nat) (p : Payload) : Except RepoError Record × Session :=
  match get_by_id model s i with
  | (Except.error e, s1) => (Except.error e, s1)
  | (Except.ok none, s1) => (Except.error (RepoError.valueError (notFoundMsg i)), s1)
  | (Except.ok (some dbItem), s1) =>
      let newItem := { dbItem with fields := applyFields dbItem.fields p.dumpExcludeUnset }
      let s2 := { s1 with working := replaceFirstById i newItem s1.working }
      match s2.commitOp check with
      | (Except.ok _, s3) =>
          let refreshed := (s3.committed.find? fun r => r.id == some i).getD newItem
          (Except.ok refreshed, { s3 with log := s3.log ++ [DbOp.refresh] })
      | (Except.error e, s3) => (Except.error (RepoError.integrityError e), s3)

/-- `GenericAsyncRepository.delete`: look the record up, raise the
not-found `ValueError` when absent, delete it and commit.  A commit
failure propagates as raised — the method has no exception handler. -/
def delete (check : Store → Option DBError) (model : OrmModel) (s : Session)
    (i : Nat) : Except RepoError Unit × Session :=
  match get_by_id model s i with
  | (Except.error e, s1) => (Except.error e, s1)
  | (Except.ok none, s1) => (Except.error (RepoError.valueError (notFoundMsg i)), s1)
  | (Except.ok (some _), s1) =>
      let s2 := { s1 with working := eraseFirstById i s1.working }
      match s2.commitOp check with
      | (Except.ok _, s3) => (Except.ok (), s3)
      | (Except.error e, s3) => (Except.error (RepoError.integrityError e), s3)

/-- `GenericAsyncRepository.transaction`: run the block; on normal exit
commit iff `autocommit`; on any exception (from the block or from the
commit) roll back and re-raise it. -/
def transaction {α : Type} (check : Store → Option DBError) (autocommit : Bool)
    (block : Session → Except RepoError α × Session) (s : Session) :
    Except RepoError α × Session :=
  match block s with
  | (Except.ok a, s1) =>
      if autocommit then
        match s1.commitOp check with
        | (Except.ok _, s2) => (Except.ok a, s2)
        | (Except.error e, s2) => (Except.error (RepoError.integrityError e), s2.rollbackOp)
      else (Except.ok a, s1)
  | (Except.error e, s1) => (Except.error e, s1.rollbackOp)

/-- Record has an assigned identifier below the generator bound. -/
def Record.idBelow (n : Nat) (r : Record) : Bool :=
  match r.id with
  | some i => i < n
  | none => false

/-- No two identifiers repeat. -/
def nodupIds : List (Option Nat) → Bool
  | [] => true
  | x :: xs => (!xs.contains x) && nodupIds xs

/-- A well-formed idle session: no pending changes, every committed
record has a distinct store-assigned identifier below the generator
counter. -/
abbrev Session.WF (s : Session) : Prop :=
  s.working = s.committed ∧
  s.committed.all (Record.idBelow s.nextId) = true ∧
  nodupIds (s.committed.map Record.id) = true

/-- Whether `needle` occurs as a contiguous segment of `hay`. -/
def listContainsSeg : List Char → List Char → Bool
  | [], needle => needle.isEmpty
  | c :: tl, needle => needle.isPrefixOf (c :: tl) || listContainsSeg tl needle

/-- Whether `needle` occurs as a substring of `hay`. -/
def strContains (hay needle : String) : Bool :=
  listContainsSeg hay.toList needle.toList

/-- Bulk atomicity of `create_many`: on success all the rows (and only
they) are appended to the committed store, in input order; on failure
the committed store is untouched and no row is left pending. -/
def BulkAtomic (check : Store → Option DBError) (model : OrmModel)
    (s : Session) (ps : List Payload) : Prop :=
  match create_many check model s ps with
  | (Except.ok rs, s2) =>
      s2.committed = s.committed ++ rs ∧ rs.length = ps.length ∧
        s2.working = s2.committed
  | (Except.error _, s2) =>
      s2.committed = s.committed ∧ s2.working = s2.committed

/-- A constraint check that always passes (a schema without constraints). -/
def wChkNone : Store → Option DBError := fun _ => none

/-- The storage error raised when the `ref` foreign key is violated. -/
def wErrRef : DBError :=
  { isFK := true,
    message := "insert or update on table \"test_model\" violates foreign key constraint" }

/-- A foreign-key violation whose diagnostic message holds no quoted
table identifier. -/
def wErrBare : DBError :=
  { isFK := true, message := "foreign key violation with no quoted name" }

/-- A foreign-key constraint on the `ref` field, with the storage
engine's diagnostic message. -/
def wChkRef : Store → Option DBError := fun st =>
  if st.any (fun r => lookupField "ref" r.fields == some "missing") then
    some wErrRef
  else none

/-- A check constraint rejecting the value `bad` in the `name` field,
reported as a non-foreign-key integrity error. -/
def wChkName : Store → Option DBError := fun st =>
  if st.any (fun r => lookupField "name" r.fields == some "bad") then
    some { isFK := false, message := "value violates check constraint" }
  else none

/-- A constraint demanding at least one row, violated by a delete. -/
def wChkEmpty : Store → Option DBError := fun st =>
  if st.isEmpty then some { isFK := false, message := "at least one row required" }
  else none

/-- A constraint that rejects any non-empty store with `wErrBare`. -/
def wChkBare : Store → Option DBError := fun st =>
  if st.isEmpty then none
  else some wErrBare

/-- An entity descriptor with an `id` attribute. -/
def wUser : OrmModel := { name := "User", hasId := true }

/-- A second entity descriptor, to compare diagnostics across types. -/
def wPost : OrmModel := { name := "Post", hasId := true }

/-- A misconfigured descriptor without an `id` attribute. -/
def wGhost : OrmModel := { name := "Ghost", hasId := false }

/-- A fresh idle session over an empty store. -/
def wEmpty : Session := { committed := [], working := [], nextId := 1, log := [] }

/-- The `{name: "Test Item"}` payload of the spec's scenario. -/
def wPayloadName : Payload :=
  { pid := none, dumpAll := [("name", "Test Item")], setKeys := ["name"] }

/-- A payload whose `ref` field points at a missing related record. -/
def wPayloadRef : Payload :=
  { pid := none, dumpAll := [("ref", "missing")], setKeys := ["ref"] }

/-- A payload that sets `name` to the value `wChkName` rejects. -/
def wPayloadBad : Payload :=
  { pid := none, dumpAll := [("name", "bad")], setKeys := ["name"] }

/-- A record already persisted with identifier 1. -/
def wRecA : Record := { id := some 1, fields := [("name", "a"), ("age", "30")] }

/-- An idle session holding just `wRecA`. -/
def wSessionA : Session :=
  { committed := [wRecA], working := [wRecA], nextId := 2, log := [] }

/-- An update payload touching only `name`, leaving `age` unset. -/
def wPayloadX : Payload :=
  { pid := none, dumpAll := [("name", "X"), ("age", "0")], setKeys := ["name"] }

/-- The explicitly-set keys of an update payload are pairwise distinct
(a pydantic model has one value per field). -/
def nodupKeys : List (FieldKey × FieldVal) → Bool
  | [] => true
  | (k, _) :: rest => (decide (k ∉ rest.map Prod.fst)) && nodupKeys rest

lemma idBelow_isSome {n : Nat} {r : Record} (h : Record.idBelow n r = true) :
    r.id.isSome = true := by
  unfold Record.idBelow at h
  cases hr : r.id with
  | none => rw [hr] at h; exact absurd h (by simp)
  | some j => simp

lemma assignIds_of_allSome (n : Nat) (l : Store) (h : ∀ r ∈ l, r.id.isSome = true) :
    assignIds n l = (l, n) := by
  induction l with
  | nil => rfl
  | cons r rs ih =>
      have hr : r.id.isSome = true := h r (List.mem_cons_self r rs)
      cases hid : r.id with
      | none => rw [hid] at hr; exact absurd hr (by simp)
      | some j =>
          have := ih (fun x hx => h x (List.mem_cons_of_mem r hx))
          simp [assignIds, hid, this]

lemma assignIds_append (n : Nat) (l1 l2 : Store) :
    assignIds n (l1 ++ l2) =
      ((assignIds n l1).1 ++ (assignIds (assignIds n l1).2 l2).1,
        (assignIds (assignIds n l1).2 l2).2) := by
  induction l1 generalizing n with
  | nil => simp [assignIds]
  | cons r rs ih =>
      cases hid : r.id with
      | none => simp [assignIds, hid, ih]
      | some j => simp [assignIds, hid, ih]

lemma assignIds_length (n : Nat) (l : Store) : (assignIds n l).1.length = l.length := by
  induction l generalizing n with
  | nil => rfl
  | cons r rs ih =>
      cases hid : r.id with
      | none => simp [assignIds, hid, ih]
      | some j => simp [assignIds, hid, ih]

lemma lookupField_eq_none {k : FieldKey} {us : List (FieldKey × FieldVal)}
    (h : k ∉ us.map Prod.fst) : lookupField k us = none := by
  induction us with
  | nil => rfl
  | cons kv rest ih =>
      obtain ⟨k2, v⟩ := kv
      simp only [List.map_cons, List.mem_cons] at h
      push_neg at h
      simp [lookupField, Ne.symm h.1, ih h.2]

lemma lookupField_setField_self (fs : List (FieldKey × FieldVal)) (k : FieldKey)
    (v : FieldVal) : lookupField k (setField fs k v) = some v := by
  induction fs with
  | nil => simp [setField, lookupField]
  | cons kv rest ih =>
      obtain ⟨k2, v2⟩ := kv
      by_cases h : k2 = k
      · simp [setField, h, lookupField]
      · simp [setField, h, lookupField, ih]

lemma lookupField_setField_ne (fs : List (FieldKey × FieldVal)) (k k2 : FieldKey)
    (v : FieldVal) (h : k2 ≠ k) :
    lookupField k2 (setField fs k v) = lookupField k2 fs := by
  induction fs with
  | nil => simp [setField, lookupField, Ne.symm h]
  | cons kv rest ih =>
      obtain ⟨k3, v3⟩ := kv
      by_cases h3 : k3 = k
      · subst h3
        simp [setField, lookupField, Ne.symm h, h]
      · by_cases h32 : k3 = k2
        · simp [setField, h3, lookupField, h32, h]
        · simp [setField, h3, lookupField, h32, ih, h]

lemma lookupField_applyFields_not_mem {fs us : List (FieldKey × FieldVal)} {k : FieldKey}
    (h : k ∉ us.map Prod.fst) :
    lookupField k (applyFields fs us) = lookupField k fs := by
  induction us generalizing fs with
  | nil => rfl
  | cons kv rest ih =>
      obtain ⟨k2, v⟩ := kv
      simp only [List.map_cons, List.mem_cons] at h
      push_neg at h
      rw [applyFields, ih h.2, lookupField_setField_ne fs k2 k v h.1]

lemma lookupField_applyFields (fs us : List (FieldKey × FieldVal)) (k : FieldKey)
    (h : nodupKeys us = true) :
    lookupField k (applyFields fs us) =
      match lookupField k us with
      | some v => some v
      | none => lookupField k fs := by
  induction us generalizing fs with
  | nil => rfl
  | cons kv rest ih =>
      obtain ⟨k2, v⟩ := kv
      simp only [nodupKeys, Bool.and_eq_true, decide_eq_true_eq] at h
      obtain ⟨hk2m, hrest⟩ := h
      by_cases hkk : k = k2
      · subst hkk
        rw [applyFields, ih (setField fs k v) hrest]
        rw [lookupField_eq_none hk2m]
        simp [lookupField, lookupField_setField_self]
      · rw [applyFields, ih (setField fs k2 v) hrest]
        have hne : ¬ k2 = k := fun h2 => hkk (Eq.symm h2)
        have hl2 : lookupField k ((k2, v) :: rest) = lookupField k rest := by
          simp only [lookupField, if_neg hne]
        rw [hl2]
        cases hr : lookupField k rest with
        | some w => rfl
        | none => exact lookupField_setField_ne fs k2 k v hkk

lemma mem_replaceFirstById {i : Nat} {x y : Record} {l : Store}
    (hy : y ∈ l) (hne : y.id ≠ some i) : y ∈ replaceFirstById i x l := by
  induction l with
  | nil => cases hy
  | cons r rs ih =>
      rcases List.mem_cons.mp hy with h | h
      · subst h
        simp [replaceFirstById, hne]
      · by_cases hr : r.id = some i
        · simp [replaceFirstById, hr, List.mem_cons, h]
        · simp only [replaceFirstById, if_neg hr]
          exact List.mem_cons_of_mem r (ih h)

lemma find?_replaceFirstById {i : Nat} {x r : Record} {l : Store}
    (h : l.find? (fun z => z.id == some i) = some r) (hx : x.id = some i) :
    (replaceFirstById i x l).find? (fun z => z.id == some i) = some x := by
  induction l with
  | nil => cases h
  | cons r2 rs ih =>
      by_cases hr : r2.id = some i
      · simp only [replaceFirstById, if_pos hr]
        rw [List.find?_cons_of_pos _ (by simp [hx])]
      · have hb : (r2.id == some i) = false := by
          simp [hr]
        rw [List.find?_cons_of_neg _ (by simp [hb])] at h
        simp only [replaceFirstById, if_neg hr]
        rw [List.find?_cons_of_neg _ (by simp [hb])]
        exact ih h

lemma allSome_replaceFirstById {i : Nat} {x : Record} {l : Store}
    (hl : ∀ r ∈ l, r.id.isSome = true) (hx : x.id.isSome = true) :
    ∀ r ∈ replaceFirstById i x l, r.id.isSome = true := by
  induction l with
  | nil => intro r hr; cases hr
  | cons r2 rs ih =>
      intro r hr
      by_cases h2 : r2.id = some i
      · simp only [replaceFirstById, if_pos h2] at hr
        rcases List.mem_cons.mp hr with h | h
        · subst h; exact hx
        · exact hl r (List.mem_cons_of_mem r2 h)
      · simp only [replaceFirstById, if_neg h2] at hr
        rcases List.mem_cons.mp hr with h | h
        · rw [h]; exact hl r2 (List.mem_cons_self r2 rs)
        · exact ih (fun z hz => hl z (List.mem_cons_of_mem r2 hz)) r h

lemma find?_id_eq_none {n : Nat} {l : Store} (h : l.all (Record.idBelow n) = true) :
    l.find? (fun r => r.id == some n) = none := by
  rw [List.find?_eq_none]
  intro x hx
  have hb : Record.idBelow n x = true := List.all_eq_true.mp h x hx
  unfold Record.idBelow at hb
  cases hid : x.id with
  | none => simp
  | some j =>
      rw [hid] at hb
      simp only [decide_eq_true_eq] at hb
      simp [hid, Nat.ne_of_lt hb]

lemma integrityHandler_snd (e : DBError) (s : Session) :
    (integrityHandler e s).2 = s.rollbackOp := by
  unfold integrityHandler
  by_cases hfk : e.isFK
  · cases ht : tableNameFromMessage e.message <;> simp [hfk, ht]
  · simp [hfk]

/-- C6: `transaction(autocommit)` commits on normal exit iff
`autocommit` is true — with `autocommit = false` the session is
returned exactly as the block left it, with `autocommit = true` the
commit result is returned — and on any exception escaping the block it
rolls back and re-raises the original exception unchanged. -/
theorem transaction_commit_iff_autocommit :
    (∀ (α : Type) (check : Store → Option DBError)
        (block : Session → Except RepoError α × Session) (s s1 : Session) (a : α),
      block s = (Except.ok a, s1) →
      transaction check false block s = (Except.ok a, s1)) ∧
    (∀ (α : Type) (check : Store → Option DBError)
        (block : Session → Except RepoError α × Session) (s s1 s2 : Session) (a : α),
      block s = (Except.ok a, s1) →
      s1.commitOp check = (Except.ok (), s2) →
      transaction check true block s = (Except.ok a, s2)) ∧
    (∀ (α : Type) (check : Store → Option DBError) (autocommit : Bool)
        (block : Session → Except RepoError α × Session) (s s1 : Session) (e : RepoError),
      block s = (Except.error e, s1) →
      transaction check autocommit block s = (Except.error e, s1.rollbackOp)) := by
  refine ⟨?_, ?_, ?_⟩
  · intro α check block s s1 a hb
    simp [transaction, hb]
  · intro α check block s s1 s2 a hb hc
    simp [transaction, hb, hc]
  · intro α check autocommit block s s1 e hb
    simp [transaction, hb]

theorem transaction_commit_iff_autocommit_witness :
    transaction wChkNone false (fun s => (Except.ok (5 : Nat), s)) wEmpty =
      (Except.ok 5, wEmpty) ∧
    transaction wChkNone true (fun s => (Except.ok (5 : Nat), s)) wEmpty =
      (Except.ok 5, { committed := [], working := [], nextId := 1, log := [DbOp.commit] }) ∧
    transaction wChkNone true
        (fun s => ((Except.error (RepoError.valueError "boom") : Except RepoError Nat), s)) wEmpty =
      (Except.error (RepoError.valueError "boom"), Session.rollbackOp wEmpty) :=
  ⟨transaction_commit_iff_autocommit.1 Nat wChkNone _ wEmpty wEmpty 5 rfl,
   transaction_commit_iff_autocommit.2.1 Nat wChkNone _ wEmpty wEmpty _ 5 rfl (by decide),
   transaction_commit_iff_autocommit.2.2 Nat wChkNone true _ wEmpty wEmpty _ rfl⟩

/-- C9: when the entity descriptor lacks an `id` attribute, every
identifier-based lookup (`get_by_id`, and through it `update` and
`delete`) fails with an `AttributeError` naming the descriptor — a
programming-error condition distinct from the not-found `ValueError` —
and the session is returned untouched: no storage query was issued. -/
theorem missing_id_descriptor_config_error :
    ∀ (check : Store → Option DBError) (model : OrmModel) (s : Session)
      (i : Nat) (p : Payload),
      model.hasId = false →
      get_by_id model s i =
        (Except.error (RepoError.attributeError (missingIdMsg model)), s) ∧
      update check model s i p =
        (Except.error (RepoError.attributeError (missingIdMsg model)), s) ∧
      delete check model s i =
        (Except.error (RepoError.attributeError (missingIdMsg model)), s) ∧
      (∀ m : String, RepoError.attributeError (missingIdMsg model) ≠ RepoError.valueError m) := by
  intro check model s i p h
  refine ⟨?_, ?_, ?_, ?_⟩
  · simp [get_by_id, h]
  · simp [update, get_by_id, h]
  · simp [delete, get_by_id, h]
  · intro m hEq
    cases hEq

theorem missing_id_descriptor_config_error_witness :
    wGhost.hasId = false ∧
    get_by_id wGhost wEmpty 1 =
      (Except.error (RepoError.attributeError (missingIdMsg wGhost)), wEmpty) ∧
    update wChkNone wGhost wEmpty 1 wPayloadName =
      (Except.error (RepoError.attributeError (missingIdMsg wGhost)), wEmpty) ∧
    delete wChkNone wGhost wEmpty 1 =
      (Except.error (RepoError.attributeError (missingIdMsg wGhost)), wEmpty) ∧
    (∀ m : String, RepoError.attributeError (missingIdMsg wGhost) ≠ RepoError.valueError m) :=
  ⟨rfl,
   (missing_id_descriptor_config_error wChkNone wGhost wEmpty 1 wPayloadName rfl).1,
   (missing_id_descriptor_config_error wChkNone wGhost wEmpty 1 wPayloadName rfl).2.1,
   (missing_id_descriptor_config_error wChkNone wGhost wEmpty 1 wPayloadName rfl).2.2.1,
   (missing_id_descriptor_config_error wChkNone wGhost wEmpty 1 wPayloadName rfl).2.2.2⟩

/-- C10: for an identifier with no matching record, `get_by_id` returns
`None` rather than raising: the read-side missing-row policy is the
absent-result variant (the route layer translates it to a 404). -/
theorem get_by_id_absent_returns_none :
    ∀ (model : OrmModel) (s : Session) (i : Nat),
      model.hasId = true →
      (s.working.find? fun r => r.id == some i) = none →
      get_by_id model s i =
        (Except.ok none, { s with log := s.log ++ [DbOp.query] }) := by
  intro model s i h hf
  simp [get_by_id, h, hf]

theorem get_by_id_absent_returns_none_witness :
    wUser.hasId = true ∧
    (wSessionA.working.find? fun r => r.id == some 9999) = none ∧
    get_by_id wUser wSessionA 9999 =
      (Except.ok none, { wSessionA with log := wSessionA.log ++ [DbOp.query] }) :=
  ⟨rfl, by decide,
   get_by_id_absent_returns_none wUser wSessionA 9999 rfl (by decide)⟩

/-- C3: when `create` or `create_many` hits an integrity error that
wraps a foreign-key violation, the unit-of-work is rolled back first
(commit, then rollback, then the raise) and, when a quoted table
identifier can be extracted from the diagnostic message, the operation
raises the domain `ValueError` whose message is the table name with
underscores turned to spaces followed by " id does not exist"; when no
table identifier can be extracted, the original storage error
propagates unmodified. -/
theorem create_translates_fk_violation :
    (∀ (check : Store → Option DBError) (model : OrmModel) (s : Session)
        (p : Payload) (e : DBError) (t : String),
      check (assignIds s.nextId (s.working ++ [mkRecord p])).1 = some e →
      e.isFK = true →
      tableNameFromMessage e.message = some t →
      create check model s p =
        (Except.error (RepoError.valueError (formatTableName t ++ " id does not exist")),
         { committed := s.committed, working := s.committed, nextId := s.nextId,
           log := s.log ++ [DbOp.commit, DbOp.rollback] })) ∧
    (∀ (check : Store → Option DBError) (model : OrmModel) (s : Session)
        (p : Payload) (e : DBError),
      check (assignIds s.nextId (s.working ++ [mkRecord p])).1 = some e →
      tableNameFromMessage e.message = none →
      create check model s p =
        (Except.error (RepoError.integrityError e),
         { committed := s.committed, working := s.committed, nextId := s.nextId,
           log := s.log ++ [DbOp.commit, DbOp.rollback] })) ∧
    (∀ (check : Store → Option DBError) (model : OrmModel) (s : Session)
        (ps : List Payload) (e : DBError) (t : String),
      check (assignIds s.nextId (s.working ++ ps.map mkRecord)).1 = some e →
      e.isFK = true →
      tableNameFromMessage e.message = some t →
      create_many check model s ps =
        (Except.error (RepoError.valueError (formatTableName t ++ " id does not exist")),
         { committed := s.committed, working := s.committed, nextId := s.nextId,
           log := s.log ++ [DbOp.commit, DbOp.rollback] })) ∧
    (∀ (check : Store → Option DBError) (model : OrmModel) (s : Session)
        (ps : List Payload) (e : DBError),
      check (assignIds s.nextId (s.working ++ ps.map mkRecord)).1 = some e →
      tableNameFromMessage e.message = none →
      create_many check model s ps =
        (Except.error (RepoError.integrityError e),
         { committed := s.committed, working := s.committed, nextId := s.nextId,
           log := s.log ++ [DbOp.commit, DbOp.rollback] })) := by
  refine ⟨?_, ?_, ?_, ?_⟩
  · intro check model s p e t hchk hfk ht
    rcases hA : assignIds s.nextId (s.working ++ [mkRecord p]) with ⟨st, n2⟩
    rw [hA] at hchk
    simp only at hchk
    simp [create, Session.commitOp, hA, hchk, integrityHandler, hfk, ht, Session.rollbackOp]
  · intro check model s p e hchk ht
    rcases hA : assignIds s.nextId (s.working ++ [mkRecord p]) with ⟨st, n2⟩
    rw [hA] at hchk
    simp only at hchk
    by_cases hfk : e.isFK
    · simp [create, Session.commitOp, hA, hchk, integrityHandler, hfk, ht, Session.rollbackOp]
    · simp [create, Session.commitOp, hA, hchk, integrityHandler, hfk, Session.rollbackOp]
  · intro check model s ps e t hchk hfk ht
    rcases hA : assignIds s.nextId (s.working ++ ps.map mkRecord) with ⟨st, n2⟩
    rw [hA] at hchk
    simp only at hchk
    simp [create_many, Session.commitOp, hA, hchk, integrityHandler, hfk, ht, Session.rollbackOp]
  · intro check model s ps e hchk ht
    rcases hA : assignIds s.nextId (s.working ++ ps.map mkRecord) with ⟨st, n2⟩
    rw [hA] at hchk
    simp only at hchk
    by_cases hfk : e.isFK
    · simp [create_many, Session.commitOp, hA, hchk, integrityHandler, hfk, ht, Session.rollbackOp]
    · simp [create_many, Session.commitOp, hA, hchk, integrityHandler, hfk, Session.rollbackOp]

theorem create_translates_fk_violation_witness :
    wChkRef (assignIds wEmpty.nextId (wEmpty.working ++ [mkRecord wPayloadRef])).1 =
      some wErrRef ∧
    tableNameFromMessage wErrRef.message = some "test_model" ∧
    create wChkRef wUser wEmpty wPayloadRef =
      (Except.error (RepoError.valueError (formatTableName "test_model" ++ " id does not exist")),
       { committed := wEmpty.committed, working := wEmpty.committed, nextId := wEmpty.nextId,
         log := wEmpty.log ++ [DbOp.commit, DbOp.rollback] }) ∧
    wChkBare (assignIds wEmpty.nextId (wEmpty.working ++ [mkRecord wPayloadName])).1 =
      some wErrBare ∧
    tableNameFromMessage wErrBare.message = none ∧
    create wChkBare wUser wEmpty wPayloadName =
      (Except.error (RepoError.integrityError wErrBare),
       { committed := wEmpty.committed, working := wEmpty.committed, nextId := wEmpty.nextId,
         log := wEmpty.log ++ [DbOp.commit, DbOp.rollback] }) ∧
    create_many wChkRef wUser wEmpty [wPayloadName, wPayloadRef] =
      (Except.error (RepoError.valueError (formatTableName "test_model" ++ " id does not exist")),
       { committed := wEmpty.committed, working := wEmpty.committed, nextId := wEmpty.nextId,
         log := wEmpty.log ++ [DbOp.commit, DbOp.rollback] }) ∧
    create_many wChkBare wUser wEmpty [wPayloadName] =
      (Except.error (RepoError.integrityError wErrBare),
       { committed := wEmpty.committed, working := wEmpty.committed, nextId := wEmpty.nextId,
         log := wEmpty.log ++ [DbOp.commit, DbOp.rollback] }) :=
  ⟨by decide, by decide,
   create_translates_fk_violation.1 wChkRef wUser wEmpty wPayloadRef wErrRef "test_model"
     (by decide) rfl (by decide),
   by decide, by decide,
   create_translates_fk_violation.2.1 wChkBare wUser wEmpty wPayloadName wErrBare
     (by decide) (by decide),
   create_translates_fk_violation.2.2.1 wChkRef wUser wEmpty [wPayloadName, wPayloadRef] wErrRef "test_model"
     (by decide) rfl (by decide),
   create_translates_fk_violation.2.2.2 wChkBare wUser wEmpty [wPayloadName] wErrBare
     (by decide) (by decide)⟩

/-- C2: `create_many` is atomic: whatever the outcome, either every
staged row is appended to the committed store (in input order, one row
per payload) or the committed store is untouched and nothing is left
pending. -/
theorem create_many_bulk_atomic :
    ∀ (check : Store → Option DBError) (model : OrmModel) (s : Session)
      (ps : List Payload), Session.WF s → BulkAtomic check model s ps := by
  intro check model s ps hWF
  obtain ⟨hwc, hbelow, hnd⟩ := hWF
  have hsome : ∀ r ∈ s.committed, r.id.isSome = true := fun r hr =>
    idBelow_isSome (List.all_eq_true.mp hbelow r hr)
  have hA : assignIds s.nextId (s.committed ++ ps.map mkRecord) =
      (s.committed ++ (assignIds s.nextId (ps.map mkRecord)).1,
        (assignIds s.nextId (ps.map mkRecord)).2) := by
    rw [assignIds_append, assignIds_of_allSome s.nextId s.committed hsome]
  unfold BulkAtomic create_many Session.commitOp
  rw [hwc]
  simp only [hA]
  cases hc : check (s.committed ++ (assignIds s.nextId (ps.map mkRecord)).1) with
  | none =>
      simp only [hc]
      refine ⟨by rw [List.drop_left], ?_, by trivial⟩
      rw [List.drop_left, assignIds_length, List.length_map]
  | some e =>
      rcases hIH : integrityHandler e
          { committed := s.committed, working := s.committed ++ List.map mkRecord ps,
            nextId := s.nextId,
            log := s.log ++ [DbOp.commit] } with ⟨err, s3⟩
      have hs3 := integrityHandler_snd e
          { committed := s.committed, working := s.committed ++ List.map mkRecord ps,
            nextId := s.nextId,
            log := s.log ++ [DbOp.commit] }
      rw [hIH] at hs3
      simp only [hc, hIH, hs3, Session.rollbackOp]
      exact ⟨by trivial, by trivial⟩

theorem create_many_bulk_atomic_witness :
    Session.WF wEmpty ∧
    BulkAtomic wChkNone wUser wEmpty [wPayloadName, wPayloadName] ∧
    BulkAtomic wChkRef wUser wEmpty [wPayloadName, wPayloadRef] :=
  ⟨by decide,
   create_many_bulk_atomic wChkNone wUser wEmpty [wPayloadName, wPayloadName] (by decide),
   create_many_bulk_atomic wChkRef wUser wEmpty [wPayloadName, wPayloadRef] (by decide)⟩

lemma create_ok_spec (check : Store → Option DBError) (model : OrmModel)
    (s : Session) (p : Payload)
    (hWF : Session.WF s) (hpid : p.pid = none)
    (hchk : check (s.committed ++ [{ id := some s.nextId, fields := p.dumpAll }]) = none) :
    create check model s p =
      (Except.ok { id := some s.nextId, fields := p.dumpAll },
       { committed := s.committed ++ [{ id := some s.nextId, fields := p.dumpAll }],
         working := s.committed ++ [{ id := some s.nextId, fields := p.dumpAll }],
         nextId := s.nextId + 1,
         log := s.log ++ [DbOp.commit, DbOp.refresh] }) := by
  obtain ⟨hwc, hbelow, hnd⟩ := hWF
  have hsome : ∀ r ∈ s.committed, r.id.isSome = true := fun r hr =>
    idBelow_isSome (List.all_eq_true.mp hbelow r hr)
  have hsingle : assignIds s.nextId [mkRecord p] =
      ([{ id := some s.nextId, fields := p.dumpAll }], s.nextId + 1) := by
    simp [assignIds, mkRecord, hpid]
  have hA : assignIds s.nextId (s.committed ++ [mkRecord p]) =
      (s.committed ++ [{ id := some s.nextId, fields := p.dumpAll }], s.nextId + 1) := by
    rw [assignIds_append, assignIds_of_allSome s.nextId s.committed hsome]
    simp [hsingle]
  unfold create Session.commitOp
  rw [hwc]
  simp only [hA, hchk]
  simp [List.get?_concat_length]

/-- C7: for a payload accepted by the store's constraints, `create`
persists a new record, commits, refreshes and returns the post-commit
stored record: the result carries the storage-generated identifier and
the payload fields, is a member of the committed store, nothing is left
pending, and the refresh happens after the commit. -/
theorem create_returns_post_commit_state :
    ∀ (check : Store → Option DBError) (model : OrmModel) (s : Session) (p : Payload),
      Session.WF s → p.pid = none →
      check (s.committed ++ [{ id := some s.nextId, fields := p.dumpAll }]) = none →
      (create check model s p).1 =
        Except.ok { id := some s.nextId, fields := p.dumpAll } ∧
      ({ id := some s.nextId, fields := p.dumpAll } : Record) ∈
        (create check model s p).2.committed ∧
      (create check model s p).2.working = (create check model s p).2.committed ∧
      (create check model s p).2.log = s.log ++ [DbOp.commit, DbOp.refresh] := by
  intro check model s p hWF hpid hchk
  rw [create_ok_spec check model s p hWF hpid hchk]
  refine ⟨rfl, ?_, rfl, rfl⟩
  exact List.mem_append_right _ (List.mem_singleton_self _)

theorem create_returns_post_commit_state_witness :
    Session.WF wEmpty ∧ wPayloadName.pid = none ∧
    wChkNone (wEmpty.committed ++
      [{ id := some wEmpty.nextId, fields := wPayloadName.dumpAll }]) = none ∧
    (create wChkNone wUser wEmpty wPayloadName).1 =
      Except.ok { id := some wEmpty.nextId, fields := wPayloadName.dumpAll } ∧
    ({ id := some wEmpty.nextId, fields := wPayloadName.dumpAll } : Record) ∈
      (create wChkNone wUser wEmpty wPayloadName).2.committed ∧
    (create wChkNone wUser wEmpty wPayloadName).2.working =
      (create wChkNone wUser wEmpty wPayloadName).2.committed ∧
    (create wChkNone wUser wEmpty wPayloadName).2.log =
      wEmpty.log ++ [DbOp.commit, DbOp.refresh] :=
  ⟨by decide, rfl, rfl,
   create_returns_post_commit_state wChkNone wUser wEmpty wPayloadName (by decide) rfl rfl⟩

/-- C8: create round-trip — after a successful `create`, looking the
returned record up by its generated identifier returns the very same
record. -/
theorem create_get_by_id_roundtrip :
    ∀ (check : Store → Option DBError) (model : OrmModel) (s : Session) (p : Payload),
      Session.WF s → model.hasId = true → p.pid = none →
      check (s.committed ++ [{ id := some s.nextId, fields := p.dumpAll }]) = none →
      (create check model s p).1 =
        Except.ok { id := some s.nextId, fields := p.dumpAll } ∧
      get_by_id model (create check model s p).2 s.nextId =
        (Except.ok (some { id := some s.nextId, fields := p.dumpAll }),
         { (create check model s p).2 with
             log := (create check model s p).2.log ++ [DbOp.query] }) := by
  intro check model s p hWF hid hpid hchk
  have hbelow := hWF.2.1
  rw [create_ok_spec check model s p hWF hpid hchk]
  refine ⟨rfl, ?_⟩
  simp only [get_by_id, hid, if_pos]
  rw [List.find?_append, find?_id_eq_none hbelow]
  simp

theorem create_get_by_id_roundtrip_witness :
    Session.WF wEmpty ∧ wUser.hasId = true ∧ wPayloadName.pid = none ∧
    wChkNone (wEmpty.committed ++
      [{ id := some wEmpty.nextId, fields := wPayloadName.dumpAll }]) = none ∧
    (create wChkNone wUser wEmpty wPayloadName).1 =
      Except.ok { id := some wEmpty.nextId, fields := wPayloadName.dumpAll } ∧
    get_by_id wUser (create wChkNone wUser wEmpty wPayloadName).2 wEmpty.nextId =
      (Except.ok (some { id := some wEmpty.nextId, fields := wPayloadName.dumpAll }),
       { (create wChkNone wUser wEmpty wPayloadName).2 with
           log := (create wChkNone wUser wEmpty wPayloadName).2.log ++ [DbOp.query] }) :=
  ⟨by decide, rfl, rfl, rfl,
   create_get_by_id_roundtrip wChkNone wUser wEmpty wPayloadName (by decide) rfl rfl rfl⟩

lemma lookupField_of_mem_nodup {us : List (FieldKey × FieldVal)} {k : FieldKey}
    {v : FieldVal} (hnd : nodupKeys us = true) (hmem : (k, v) ∈ us) :
    lookupField k us = some v := by
  induction us with
  | nil => cases hmem
  | cons kv rest ih =>
      obtain ⟨k2, v2⟩ := kv
      simp only [nodupKeys, Bool.and_eq_true, decide_eq_true_eq] at hnd
      obtain ⟨hk2, hrest⟩ := hnd
      rcases List.mem_cons.mp hmem with h | h
      · cases h
        simp [lookupField]
      · have hne : k2 ≠ k := by
          intro he
          subst he
          exact hk2 (List.mem_map.mpr ⟨(k2, v), h, rfl⟩)
        simp [lookupField, hne, ih hrest h]

/-- C1: a successful `update(r.id, p)` writes exactly the explicitly-set
fields of `p` onto the stored record — each set field now reads as the
payload value, and every field not present in `p` keeps its prior value
— and every other record in the store is untouched. -/
theorem update_applies_exactly_set_fields :
    ∀ (check : Store → Option DBError) (model : OrmModel) (s : Session)
      (i : Nat) (p : Payload) (r : Record),
      Session.WF s → model.hasId = true →
      nodupKeys p.dumpExcludeUnset = true →
      (s.working.find? fun z => z.id == some i) = some r →
      check (replaceFirstById i
        { r with fields := applyFields r.fields p.dumpExcludeUnset } s.committed) = none →
      (update check model s i p).1 =
        Except.ok { r with fields := applyFields r.fields p.dumpExcludeUnset } ∧
      (∀ (k : FieldKey) (v : FieldVal), (k, v) ∈ p.dumpExcludeUnset →
        lookupField k (applyFields r.fields p.dumpExcludeUnset) = some v) ∧
      (∀ k : FieldKey, k ∉ p.dumpExcludeUnset.map Prod.fst →
        lookupField k (applyFields r.fields p.dumpExcludeUnset) = lookupField k r.fields) ∧
      (update check model s i p).2.committed =
        replaceFirstById i
          { r with fields := applyFields r.fields p.dumpExcludeUnset } s.committed ∧
      (∀ y ∈ s.committed, y.id ≠ some i →
        y ∈ (update check model s i p).2.committed) := by
  intro check model s i p r hWF hid hnd hfind hchk
  obtain ⟨hwc, hbelow, hndid⟩ := hWF
  have hsome : ∀ x ∈ s.committed, x.id.isSome = true := fun x hx =>
    idBelow_isSome (List.all_eq_true.mp hbelow x hx)
  have hrid2 : r.id = some i := by
    have := List.find?_some hfind
    simpa using this
  have hfindc : (s.committed.find? fun z => z.id == some i) = some r := by
    rw [← hwc]; exact hfind
  have hNIid : ({ r with fields := applyFields r.fields p.dumpExcludeUnset } : Record).id
      = some i := hrid2
  have hreplSome : ∀ x ∈ replaceFirstById i
      { r with fields := applyFields r.fields p.dumpExcludeUnset } s.committed,
      x.id.isSome = true :=
    allSome_replaceFirstById hsome (by simp [hrid2])
  have hassignC : assignIds s.nextId (replaceFirstById i
      { r with fields := applyFields r.fields p.dumpExcludeUnset } s.committed) =
      (replaceFirstById i
        { r with fields := applyFields r.fields p.dumpExcludeUnset } s.committed, s.nextId) :=
    assignIds_of_allSome _ _ hreplSome
  have hup : update check model s i p =
      (Except.ok { r with fields := applyFields r.fields p.dumpExcludeUnset },
       { committed := replaceFirstById i
           { r with fields := applyFields r.fields p.dumpExcludeUnset } s.committed,
         working := replaceFirstById i
           { r with fields := applyFields r.fields p.dumpExcludeUnset } s.committed,
         nextId := s.nextId,
         log := s.log ++ [DbOp.query, DbOp.commit, DbOp.refresh] }) := by
    unfold update
    simp only [get_by_id, hid, if_true, hfind]
    simp only [Session.commitOp, hwc]
    rw [hassignC]
    simp only [hchk]
    rw [find?_replaceFirstById hfindc hNIid]
    simp
  refine ⟨by rw [hup], ?_, ?_, by rw [hup], ?_⟩
  · intro k v hmem
    rw [lookupField_applyFields r.fields p.dumpExcludeUnset k hnd,
      lookupField_of_mem_nodup hnd hmem]
  · intro k hk
    exact lookupField_applyFields_not_mem hk
  · intro y hy hne
    rw [hup]
    exact mem_replaceFirstById hy hne

theorem update_applies_exactly_set_fields_witness :
    Session.WF wSessionA ∧
    nodupKeys wPayloadX.dumpExcludeUnset = true ∧
    (wSessionA.working.find? fun z => z.id == some 1) = some wRecA ∧
    (update wChkNone wUser wSessionA 1 wPayloadX).1 =
      Except.ok { wRecA with fields := applyFields wRecA.fields wPayloadX.dumpExcludeUnset } ∧
    lookupField "name" (applyFields wRecA.fields wPayloadX.dumpExcludeUnset) = some "X" ∧
    lookupField "age" (applyFields wRecA.fields wPayloadX.dumpExcludeUnset) =
      lookupField "age" wRecA.fields :=
  ⟨by decide, by decide, by decide,
   (update_applies_exactly_set_fields wChkNone wUser wSessionA 1 wPayloadX wRecA
     (by decide) rfl (by decide) (by decide) (by decide)).1,
   (update_applies_exactly_set_fields wChkNone wUser wSessionA 1 wPayloadX wRecA
     (by decide) rfl (by decide) (by decide) (by decide)).2.1 "name" "X" (by decide),
   (update_applies_exactly_set_fields wChkNone wUser wSessionA 1 wPayloadX wRecA
     (by decide) rfl (by decide) (by decide) (by decide)).2.2.1 "age" (by decide)⟩

/-- C5 counterexample: the not-found failure of `update`/`delete` does
not carry the entity type.  On a missing identifier the raised message
is `"Item with id 9999 not found"`, which is identical for the `User`
and `Post` descriptors and names neither. -/
theorem notfound_lacks_entity_type_counterexample :
    (update wChkNone wUser wEmpty 9999 wPayloadName).1 =
      Except.error (RepoError.valueError "Item with id 9999 not found") ∧
    (delete wChkNone wUser wEmpty 9999).1 =
      Except.error (RepoError.valueError "Item with id 9999 not found") ∧
    (update wChkNone wUser wEmpty 9999 wPayloadName).1 =
      (update wChkNone wPost wEmpty 9999 wPayloadName).1 ∧
    strContains "Item with id 9999 not found" "User" = false ∧
    strContains "Item with id 9999 not found" "Post" = false := by
  decide

/-- C5 (amended): for an identifier with no matching record, `update`
and `delete` both fail with the not-found `ValueError` whose message
carries the identifier — but not the entity type — and neither call
mutates any record: the session is returned with only the lookup query
logged. -/
theorem update_delete_notfound_carries_identifier :
    ∀ (check : Store → Option DBError) (model : OrmModel) (s : Session)
      (i : Nat) (p : Payload),
      model.hasId = true →
      (s.working.find? fun z => z.id == some i) = none →
      update check model s i p =
        (Except.error (RepoError.valueError (notFoundMsg i)),
         { s with log := s.log ++ [DbOp.query] }) ∧
      delete check model s i =
        (Except.error (RepoError.valueError (notFoundMsg i)),
         { s with log := s.log ++ [DbOp.query] }) ∧
      notFoundMsg i = "Item with id " ++ toString i ++ " not found" := by
  intro check model s i p hid hfind
  refine ⟨?_, ?_, rfl⟩
  · unfold update
    simp only [get_by_id, hid, if_true, hfind]
  · unfold delete
    simp only [get_by_id, hid, if_true, hfind]

theorem update_delete_notfound_carries_identifier_witness :
    wUser.hasId = true ∧
    (wSessionA.working.find? fun z => z.id == some 9999) = none ∧
    update wChkNone wUser wSessionA 9999 wPayloadName =
      (Except.error (RepoError.valueError (notFoundMsg 9999)),
       { wSessionA with log := wSessionA.log ++ [DbOp.query] }) ∧
    delete wChkNone wUser wSessionA 9999 =
      (Except.error (RepoError.valueError (notFoundMsg 9999)),
       { wSessionA with log := wSessionA.log ++ [DbOp.query] }) ∧
    notFoundMsg 9999 = "Item with id " ++ toString 9999 ++ " not found" :=
  ⟨rfl, by decide,
   (update_delete_notfound_carries_identifier wChkNone wUser wSessionA 9999 wPayloadName
     rfl (by decide)).1,
   (update_delete_notfound_carries_identifier wChkNone wUser wSessionA 9999 wPayloadName
     rfl (by decide)).2.1,
   (update_delete_notfound_carries_identifier wChkNone wUser wSessionA 9999 wPayloadName
     rfl (by decide)).2.2⟩

/-- C4 counterexample: not every failing write path rolls back.  A
commit failure inside `update` (which has no exception handler)
propagates without any rollback: afterwards the session still holds the
uncommitted modified record and no rollback was ever issued. -/
theorem update_commit_failure_without_rollback :
    (update wChkName wUser wSessionA 1 wPayloadBad).1 =
      Except.error (RepoError.integrityError
        { isFK := false, message := "value violates check constraint" }) ∧
    (update wChkName wUser wSessionA 1 wPayloadBad).2.working ≠
      (update wChkName wUser wSessionA 1 wPayloadBad).2.committed ∧
    DbOp.rollback ∉ (update wChkName wUser wSessionA 1 wPayloadBad).2.log := by
  decide

/-- C4 (amended): `create` and `create_many` roll back the unit-of-work
before any failure is raised; `update` and `delete` raise their
not-found failure before touching the store (only the lookup query was
issued), but a commit failure inside `update` or `delete` propagates
without a rollback — the commit is the last operation logged and the
working state is left as the failed transaction had it. -/
theorem write_failure_rollback_discipline :
    (∀ (check : Store → Option DBError) (model : OrmModel) (s : Session)
        (p : Payload) (err : RepoError) (s2 : Session),
      create check model s p = (Except.error err, s2) →
      s2.working = s2.committed ∧ s2.committed = s.committed ∧
      s2.log = s.log ++ [DbOp.commit, DbOp.rollback]) ∧
    (∀ (check : Store → Option DBError) (model : OrmModel) (s : Session)
        (ps : List Payload) (err : RepoError) (s2 : Session),
      create_many check model s ps = (Except.error err, s2) →
      s2.working = s2.committed ∧ s2.committed = s.committed ∧
      s2.log = s.log ++ [DbOp.commit, DbOp.rollback]) ∧
    (∀ (check : Store → Option DBError) (model : OrmModel) (s : Session)
        (i : Nat) (p : Payload) (e : DBError) (s2 : Session),
      update check model s i p = (Except.error (RepoError.integrityError e), s2) →
      s2.committed = s.committed ∧ s2.log = s.log ++ [DbOp.query, DbOp.commit]) ∧
    (∀ (check : Store → Option DBError) (model : OrmModel) (s : Session)
        (i : Nat) (e : DBError) (s2 : Session),
      delete check model s i = (Except.error (RepoError.integrityError e), s2) →
      s2.committed = s.committed ∧ s2.log = s.log ++ [DbOp.query, DbOp.commit]) ∧
    (∀ (check : Store → Option DBError) (model : OrmModel) (s : Session)
        (i : Nat) (p : Payload),
      model.hasId = true →
      (s.working.find? fun z => z.id == some i) = none →
      (update check model s i p).2 = { s with log := s.log ++ [DbOp.query] } ∧
      (delete check model s i).2 = { s with log := s.log ++ [DbOp.query] }) := by
  refine ⟨?_, ?_, ?_, ?_, ?_⟩
  · intro check model s p err s2 h
    rcases hA : assignIds s.nextId (s.working ++ [mkRecord p]) with ⟨st, n2⟩
    unfold create Session.commitOp at h
    simp only [hA] at h
    cases hc : check st with
    | none => rw [hc] at h; simp at h
    | some e =>
        rw [hc] at h
        simp only [Prod.mk.injEq, Except.error.injEq] at h
        have hs3 := integrityHandler_snd e
            { committed := s.committed, working := s.working ++ [mkRecord p],
              nextId := s.nextId, log := s.log ++ [DbOp.commit] }
        rw [← h.2, hs3]
        simp [Session.rollbackOp]
  · intro check model s ps err s2 h
    rcases hA : assignIds s.nextId (s.working ++ ps.map mkRecord) with ⟨st, n2⟩
    unfold create_many Session.commitOp at h
    simp only [hA] at h
    cases hc : check st with
    | none => rw [hc] at h; simp at h
    | some e =>
        rw [hc] at h
        simp only [Prod.mk.injEq, Except.error.injEq] at h
        have hs3 := integrityHandler_snd e
            { committed := s.committed, working := s.working ++ ps.map mkRecord,
              nextId := s.nextId, log := s.log ++ [DbOp.commit] }
        rw [← h.2, hs3]
        simp [Session.rollbackOp]
  · intro check model s i p e s2 h
    unfold update at h
    by_cases hid : model.hasId
    · simp only [get_by_id, hid, if_true] at h
      cases hf : s.working.find? fun z => z.id == some i with
      | none => rw [hf] at h; simp at h
      | some r =>
          rw [hf] at h
          simp only [Session.commitOp] at h
          rcases hA : assignIds s.nextId (replaceFirstById i
              { r with fields := applyFields r.fields p.dumpExcludeUnset } s.working)
            with ⟨st, n2⟩
          rw [hA] at h
          cases hc : check st with
          | none => rw [hc] at h; simp at h
          | some e2 =>
              rw [hc] at h
              simp only [Prod.mk.injEq] at h
              rw [← h.2]
              simp
    · simp only [get_by_id, hid] at h
      simp at h
  · intro check model s i e s2 h
    unfold delete at h
    by_cases hid : model.hasId
    · simp only [get_by_id, hid, if_true] at h
      cases hf : s.working.find? fun z => z.id == some i with
      | none => rw [hf] at h; simp at h
      | some r =>
          rw [hf] at h
          simp only [Session.commitOp] at h
          rcases hA : assignIds s.nextId (eraseFirstById i s.working) with ⟨st, n2⟩
          rw [hA] at h
          cases hc : check st with
          | none => rw [hc] at h; simp at h
          | some e2 =>
              rw [hc] at h
              simp only [Prod.mk.injEq] at h
              rw [← h.2]
              simp
    · simp only [get_by_id, hid] at h
      simp at h
  · intro check model s i p hid hf
    constructor
    · unfold update
      simp only [get_by_id, hid, if_true, hf]
    · unfold delete
      simp only [get_by_id, hid, if_true, hf]

theorem write_failure_rollback_discipline_witness :
    ((create wChkBare wUser wEmpty wPayloadName).2.working =
       (create wChkBare wUser wEmpty wPayloadName).2.committed ∧
     (create wChkBare wUser wEmpty wPayloadName).2.committed = wEmpty.committed ∧
     (create wChkBare wUser wEmpty wPayloadName).2.log =
       wEmpty.log ++ [DbOp.commit, DbOp.rollback]) ∧
    ((create_many wChkBare wUser wEmpty [wPayloadName]).2.working =
       (create_many wChkBare wUser wEmpty [wPayloadName]).2.committed ∧
     (create_many wChkBare wUser wEmpty [wPayloadName]).2.committed = wEmpty.committed ∧
     (create_many wChkBare wUser wEmpty [wPayloadName]).2.log =
       wEmpty.log ++ [DbOp.commit, DbOp.rollback]) ∧
    ((update wChkName wUser wSessionA 1 wPayloadBad).2.committed = wSessionA.committed ∧
     (update wChkName wUser wSessionA 1 wPayloadBad).2.log =
       wSessionA.log ++ [DbOp.query, DbOp.commit]) ∧
    ((delete wChkEmpty wUser wSessionA 1).2.committed = wSessionA.committed ∧
     (delete wChkEmpty wUser wSessionA 1).2.log =
       wSessionA.log ++ [DbOp.query, DbOp.commit]) ∧
    ((update wChkNone wUser wSessionA 9999 wPayloadName).2 =
       { wSessionA with log := wSessionA.log ++ [DbOp.query] } ∧
     (delete wChkNone wUser wSessionA 9999).2 =
       { wSessionA with log := wSessionA.log ++ [DbOp.query] }) :=
  ⟨write_failure_rollback_discipline.1 wChkBare wUser wEmpty wPayloadName
     (RepoError.integrityError wErrBare)
     (create wChkBare wUser wEmpty wPayloadName).2 (by decide),
   write_failure_rollback_discipline.2.1 wChkBare wUser wEmpty [wPayloadName]
     (RepoError.integrityError wErrBare)
     (create_many wChkBare wUser wEmpty [wPayloadName]).2 (by decide),
   write_failure_rollback_discipline.2.2.1 wChkName wUser wSessionA 1 wPayloadBad
     { isFK := false, message := "value violates check constraint" }
     (update wChkName wUser wSessionA 1 wPayloadBad).2 (by decide),
   write_failure_rollback_discipline.2.2.2.1 wChkEmpty wUser wSessionA 1
     { isFK := false, message := "at least one row required" }
     (delete wChkEmpty wUser wSessionA 1).2 (by decide),
   write_failure_rollback_discipline.2.2.2.2 wChkNone wUser wSessionA 9999 wPayloadName
     rfl (by decide)⟩
